import Mathlib

/-!
A shallow embedding of the gopresence Presence Store & Synchronization Layer.

Conventions of the embedding:
* Go `time.Time` instants and `time.Duration` values are both modelled as
  `Int` nanoseconds; the current wall-clock instant (`time.Now()`) is passed
  explicitly as a parameter `now`.  `time.Since(t)` is `now - t`.
* Go maps are modelled as association lists (`Smap`) with overwrite-on-insert
  semantics; lookups are by `mfind`.
* The Ristretto cache is modelled at its flushed synchronization point
  (`cache.Wait()` in the source): after a flush, the admitted contents behave
  as a key-value map.  The typed model cannot hold values of a wrong dynamic
  type, so the corrupted-entry branch of `ristrettoCache.Get` is vacuous here.
* The jetstream key-value bucket underneath `kvStore` is abstracted as a
  `JSBucket`: a lookup function returning either an error (flagged as
  key-not-found or not, with its message) or an entry whose payload is empty,
  undecodable, or a decoded record, plus a per-key put-failure oracle.
* Go errors are modelled as inductive kinds whose constructor arguments are
  the format arguments of the corresponding `fmt.Errorf` call site.
-/

namespace GoPresence

/-- The presence record from `internal/models/presence.go` (`type Presence`).
`Status` mirrors the Go declaration `type PresenceStatus string`. -/
structure Presence where
  UserID : String
  Status : String
  Message : String
  LastSeen : Int
  UpdatedAt : Int
  NodeID : String
  TTL : Int
deriving Repr, DecidableEq

/-- `PresenceStatus.IsValid` from `internal/models/presence.go`. -/
def statusIsValid (s : String) : Bool :=
  s = "online" || s = "away" || s = "busy" || s = "offline"

/-- `Presence.Validate` from `internal/models/presence.go`: returns the error
message (`some msg`) or `none` on success. -/
def Presence.Validate (p : Presence) : Option String :=
  if p.UserID = "" then some "user_id is required"
  else if !statusIsValid p.Status then some "invalid status"
  else if p.NodeID = "" then some "node_id is required"
  else none

/-- `Presence.IsExpired` from `internal/models/presence.go`:
`TTL == 0` never expires, otherwise `time.Since(UpdatedAt) > TTL`. -/
def Presence.IsExpired (p : Presence) (now : Int) : Bool :=
  if p.TTL = 0 then false
  else decide (now - p.UpdatedAt > p.TTL)

/-! ### Go map model -/

/-- A Go `map[string]Presence`, as an association list with unique first hit. -/
abbrev Smap := List (String × Presence)

/-- Map lookup (`m[k]`). -/
def mfind (m : Smap) (k : String) : Option Presence :=
  match m with
  | [] => none
  | (k', v) :: rest => if k' = k then some v else mfind rest k

/-- Removal of a key (used for `delete(m,k)` and cache `Del`). -/
def mremove (m : Smap) (k : String) : Smap :=
  match m with
  | [] => []
  | (k', v) :: rest => if k' = k then mremove rest k else (k', v) :: mremove rest k

/-- Map assignment `m[k] = v` (overwrite semantics). -/
def minsert (m : Smap) (k : String) (v : Presence) : Smap :=
  (k, v) :: mremove m k

/-! ### Cache layer: `ristrettoCache` from `internal/cache/cache_test.go` -/

/-- `ristrettoCache.Get`: lookup, then the application-level TTL check
(`presence.TTL > 0 && time.Since(presence.UpdatedAt) > presence.TTL`), which
deletes and misses on expiry.  Returns the result together with the cache
contents after the call. -/
def ristrettoCache.Get (now : Int) (c : Smap) (userID : String) :
    Option Presence × Smap :=
  match mfind c userID with
  | none => (none, c)
  | some presence =>
    if presence.TTL > 0 && decide (now - presence.UpdatedAt > presence.TTL) then
      (none, mremove c userID)
    else
      (some presence, c)

/-- The TTL-overwriting step of `ristrettoCache.Set`: the record it actually
stores (`if ttl > 0 { presence.TTL = ttl }`). -/
def storedRecord (presence : Presence) (ttl : Int) : Presence :=
  if ttl > 0 then { presence with TTL := ttl } else presence

/-- `ristrettoCache.Set`: stores the record, first overwriting its `TTL`
field with the `ttl` argument when `ttl > 0`.  Modelled after the
`cache.Wait()` flush point, where an admitted entry is visible. -/
def ristrettoCache.Set (c : Smap) (userID : String) (presence : Presence)
    (ttl : Int) : Smap :=
  minsert c userID (storedRecord presence ttl)

/-- `ristrettoCache.Delete`. -/
def ristrettoCache.Delete (c : Smap) (userID : String) : Smap :=
  mremove c userID

/-! ### Durable store: `kvStore` from `internal/models/presence.go` (nats) -/

/-- Raw payload of a jetstream KV entry, as seen by `kvStore.Get` after a
successful `kv.Get`: empty (`len(entry.Value()) == 0`), undecodable
(`json.Unmarshal` fails with message `msg`), or decoded to a record. -/
inductive RawVal where
  | empty : RawVal
  | corrupt (msg : String) : RawVal
  | decoded (p : Presence) : RawVal
deriving Repr, DecidableEq

/-- Result of the underlying `kv.Get` call: an error (with the flag of
`errors.Is(err, jetstream.ErrKeyNotFound)` and the error text) or an entry. -/
inductive JSGetResult where
  | err (keyNotFound : Bool) (msg : String) : JSGetResult
  | entry (v : RawVal) : JSGetResult
deriving Repr, DecidableEq

/-- The jetstream KV bucket underneath a `kvStore`: per-key read results and a
per-key put-failure oracle (`some msg` when `kv.Put` fails with `msg`). -/
structure JSBucket where
  get : String → JSGetResult
  putErr : String → Option String

/-- `strings.Contains`. -/
def strContains (hay needle : String) : Bool :=
  hay.toList.tails.any (fun t => needle.toList.isPrefixOf t)

/-- Error kinds produced by `kvStore.Get`, one constructor per `fmt.Errorf`
call site, carrying the format arguments. -/
inductive StoreErr where
  | notFound (userID : String) : StoreErr
  | getFailed (msg : String) : StoreErr
  | unmarshalFailed (msg : String) : StoreErr
deriving Repr, DecidableEq

/-- `kvStore.presenceKey`. -/
def presenceKey (userID : String) : String := "user." ++ userID

/-- `kvStore.Get` from `internal/models/presence.go`: error classification
(key-not-found flag or a "not found"/"no message found" substring), then the
empty-payload check, then `json.Unmarshal`, then `Validate`. -/
def kvStore.Get (b : JSBucket) (userID : String) : Except StoreErr Presence :=
  match b.get (presenceKey userID) with
  | .err knf msg =>
    if knf || strContains msg "not found" || strContains msg "no message found" then
      .error (.notFound userID)
    else
      .error (.getFailed msg)
  | .entry .empty => .error (.notFound userID)
  | .entry (.corrupt msg) => .error (.unmarshalFailed msg)
  | .entry (.decoded presence) =>
    match presence.Validate with
    | some _ => .error (.notFound userID)
    | none => .ok presence

/-- `kvStore.Set`: marshals and `Put`s the record under `presenceKey userID`
(marshalling of this struct cannot fail; the `ttl` argument is ignored by the
source, which relies on the bucket-level TTL). -/
def kvStore.Set (b : JSBucket) (userID : String) (presence : Presence)
    (_ttl : Int) : Except String JSBucket :=
  match b.putErr (presenceKey userID) with
  | some msg => .error ("failed to put presence: " ++ msg)
  | none =>
    .ok { b with
          get := fun k =>
            if k = presenceKey userID then .entry (.decoded presence) else b.get k }

/-- `kvStore.GetMultiple`: one `kvStore.Get` per id, errors skipped, and a
literally always-`nil` error (second component). -/
def kvStore.GetMultiple (b : JSBucket) (userIDs : List String) :
    Smap × Option String :=
  (userIDs.foldl
    (fun acc userID =>
      match kvStore.Get b userID with
      | .ok presence => minsert acc userID presence
      | .error _ => acc)
    [], none)

/-! ### Presence service orchestrator from `internal/service` -/

/-- Error kinds returned by `PresenceService` operations, one constructor per
error-producing site in the source. -/
inductive SvcErr where
  | presenceNotFound (userID : String) : SvcErr
  | invalidPresence (msg : String) : SvcErr
  | storeFailed (msg : String) : SvcErr
  | getMultipleFailed (msg : String) : SvcErr
deriving Repr, DecidableEq

/-- The mutable state a `PresenceService` call threads: the cache contents and
the jetstream bucket of its `kvStore`. -/
structure SvcState where
  cache : Smap
  bucket : JSBucket

/-- The store fall-through of `PresenceService.GetPresence`: fetch from the
durable store; any error becomes `PresenceNotFoundError`; a hit is cached
(with `presence.TTL` as the cache ttl argument) and returned. -/
def PresenceService.fetchStore (st : SvcState) (userID : String) :
    Except SvcErr Presence × SvcState :=
  match kvStore.Get st.bucket userID with
  | .error _ => (.error (.presenceNotFound userID), st)
  | .ok presence =>
    (.ok presence,
     { st with cache := ristrettoCache.Set st.cache userID presence presence.TTL })

/-- `PresenceService.GetPresence`: cache first; an unexpired hit is returned;
an expired hit is deleted from the cache; misses and expired hits fall through
to the store. -/
def PresenceService.GetPresence (now : Int) (st : SvcState) (userID : String) :
    Except SvcErr Presence × SvcState :=
  match ristrettoCache.Get now st.cache userID with
  | (some presence, cache1) =>
    if !(presence.IsExpired now) then
      (.ok presence, { st with cache := cache1 })
    else
      PresenceService.fetchStore
        { st with cache := ristrettoCache.Delete cache1 userID } userID
  | (none, cache1) =>
    PresenceService.fetchStore { st with cache := cache1 } userID

/-- The stamping step of `SetPresence`: `NodeID` and
`UpdatedAt = LastSeen = now` are overwritten server-side. -/
def stampedRecord (now : Int) (nodeID : String) (presence : Presence) : Presence :=
  { presence with NodeID := nodeID, UpdatedAt := now, LastSeen := now }

/-- `PresenceService.SetPresence`: stamp `NodeID` and
`UpdatedAt = LastSeen = now` (server-authoritative), validate, write to the
store, then update the cache. -/
def PresenceService.SetPresence (now : Int) (nodeID : String) (st : SvcState)
    (userID : String) (presence : Presence) : Except SvcErr Unit × SvcState :=
  match (stampedRecord now nodeID presence).Validate with
  | some msg => (.error (.invalidPresence msg), st)
  | none =>
    match kvStore.Set st.bucket userID (stampedRecord now nodeID presence)
        (stampedRecord now nodeID presence).TTL with
    | .error msg => (.error (.storeFailed msg), st)
    | .ok bucket1 =>
      (.ok (),
       { cache := ristrettoCache.Set st.cache userID
           (stampedRecord now nodeID presence)
           (stampedRecord now nodeID presence).TTL,
         bucket := bucket1 })

/-- The first loop of `PresenceService.GetMultiplePresences`: classify each id
against the cache (an unexpired hit joins `result`; an expired hit is deleted
from the cache; everything else joins `missingUsers`). -/
def PresenceService.cachePass (now : Int) :
    List String → Smap → List String → Smap → Smap × List String × Smap
  | [], result, missing, cache => (result, missing, cache)
  | userID :: rest, result, missing, cache =>
    match ristrettoCache.Get now cache userID with
    | (some presence, cache1) =>
      if !(presence.IsExpired now) then
        PresenceService.cachePass now rest (minsert result userID presence) missing cache1
      else
        PresenceService.cachePass now rest result (missing ++ [userID])
          (ristrettoCache.Delete cache1 userID)
    | (none, cache1) =>
      PresenceService.cachePass now rest result (missing ++ [userID]) cache1

/-- The second loop of `GetMultiplePresences`: each store-fetched record is
added to the result map and written to the cache (with its own `TTL` as the
cache ttl argument). -/
def storeMerge (storeResults result cache1 : Smap) : Smap × Smap :=
  storeResults.foldl
    (fun (acc : Smap × Smap) kv =>
      (minsert acc.1 kv.1 kv.2, ristrettoCache.Set acc.2 kv.1 kv.2 kv.2.TTL))
    (result, cache1)

/-- `PresenceService.GetMultiplePresences`: cache pass, then one batched store
call for the missing ids, whose results are merged into the map and cached. -/
def PresenceService.GetMultiplePresences (now : Int) (st : SvcState)
    (userIDs : List String) : Except SvcErr Smap × SvcState :=
  match PresenceService.cachePass now userIDs [] [] st.cache with
  | (result, missing, cache1) =>
    if missing.length > 0 then
      match kvStore.GetMultiple st.bucket missing with
      | (_, some msg) => (.error (.getMultipleFailed msg), { st with cache := cache1 })
      | (storeResults, none) =>
        (.ok (storeMerge storeResults result cache1).1,
         { st with cache := (storeMerge storeResults result cache1).2 })
    else
      (.ok result, { st with cache := cache1 })

/-- Classification of an id in the cache tier: the record when the cache holds
an unexpired entry for it, `none` otherwise. -/
def freshHit (now : Int) (cache : Smap) (userID : String) : Option Presence :=
  match mfind cache userID with
  | some presence => if presence.IsExpired now then none else some presence
  | none => none

/-- The map `GetMultiplePresences` is specified to return: exactly the ids
found in either tier, the cache tier taking precedence. -/
def multiSpec (now : Int) (st : SvcState) (userIDs : List String)
    (userID : String) : Option Presence :=
  if userID ∈ userIDs then
    match freshHit now st.cache userID with
    | some presence => some presence
    | none =>
      match kvStore.Get st.bucket userID with
      | .ok presence => some presence
      | .error _ => none
  else none

/-! ### Embedded broker startup: `kvStore.startEmbeddedServer` / `NewKVStore` -/

/-- The timeout the readiness loop uses: the parsed `StartTimeout` override
when present and non-zero, otherwise 30s for a center node and 15s otherwise
(nanoseconds). -/
def chooseTimeout (cfgTimeout : Option Int) (nodeType : String) : Int :=
  let t := match cfgTimeout with
    | some d => d
    | none => 0
  if t = 0 then (if nodeType = "center" then 30000000000 else 15000000000) else t

/-- The failure produced by the readiness loop on timeout.  `withinArg` and
`nodeTypeArg` are the two format arguments of
`fmt.Errorf("server failed to start within %v (node type: %s)", ...)`;
`shutdownCalled` records that `ns.Shutdown()` ran before returning. -/
structure StartFailure where
  withinArg : Int
  nodeTypeArg : String
  shutdownCalled : Bool
deriving Repr, DecidableEq

/-- The readiness polling loop of `startEmbeddedServer`.  `readyAt k` is the
outcome of `ns.ReadyForConnections` at iteration `k` and `elapsed k` the value
of `time.Since(startTime)` there.  `fuel` bounds the number of iterations
modelled; `none` means the loop is still spinning after `fuel` iterations. -/
def pollLoop (readyAt : Nat → Bool) (elapsed : Nat → Int) (timeout : Int)
    (nodeType : String) : Nat → Nat → Option (Except StartFailure Unit)
  | _, 0 => none
  | k, fuel + 1 =>
    if readyAt k then some (Except.ok ())
    else if elapsed k ≥ timeout then
      some (Except.error ⟨timeout, nodeType, true⟩)
    else pollLoop readyAt elapsed timeout nodeType (k + 1) fuel

/-- `kvStore.startEmbeddedServer`, restricted to role selection, timeout
selection and the readiness loop (the parts the startup claims are about). -/
def startEmbeddedServer (cfgNodeType : String) (cfgTimeout : Option Int)
    (readyAt : Nat → Bool) (elapsed : Nat → Int) (fuel : Nat) :
    Option (Except StartFailure Unit) :=
  pollLoop readyAt elapsed
    (chooseTimeout cfgTimeout (if cfgNodeType = "" then "center" else cfgNodeType))
    (if cfgNodeType = "" then "center" else cfgNodeType) 0 fuel

/-- The outcome of the embedded-startup phase of `NewKVStore`: either construction
proceeds past broker startup, or no store object is returned and the startup
failure is wrapped as `"failed to start embedded server: %w"`. -/
inductive BuildOutcome where
  | proceeds : BuildOutcome
  | failsWith (f : StartFailure) : BuildOutcome
deriving Repr, DecidableEq

/-- The embedded-startup phase of `NewKVStore` (the non-embedded path skips
`startEmbeddedServer` entirely). -/
def NewKVStoreStartup (embedded : Bool) (cfgNodeType : String)
    (cfgTimeout : Option Int) (readyAt : Nat → Bool) (elapsed : Nat → Int)
    (fuel : Nat) : Option BuildOutcome :=
  if embedded then
    match startEmbeddedServer cfgNodeType cfgTimeout readyAt elapsed fuel with
    | none => none
    | some (.ok _) => some .proceeds
    | some (.error f) => some (.failsWith f)
  else some .proceeds

/-! ### Map and cache lemmas -/

theorem mfind_mremove (m : Smap) (k k' : String) :
    mfind (mremove m k) k' = if k = k' then none else mfind m k' := by
  induction m with
  | nil => simp [mremove, mfind]
  | cons kv rest ih =>
    obtain ⟨a, b⟩ := kv
    by_cases hak : a = k
    · subst hak
      rw [show mremove ((a, b) :: rest) a = mremove rest a by simp [mremove], ih]
      by_cases hkk : a = k'
      · simp [hkk]
      · simp [hkk, mfind]
    · rw [show mremove ((a, b) :: rest) k = (a, b) :: mremove rest k by
        simp [mremove, hak]]
      by_cases hak' : a = k'
      · subst hak'
        have hkk : ¬ k = a := fun h => hak h.symm
        simp [mfind, hkk]
      · simp [mfind, hak', ih]

theorem mfind_minsert (m : Smap) (k : String) (v : Presence) (k' : String) :
    mfind (minsert m k v) k' = if k = k' then some v else mfind m k' := by
  unfold minsert
  by_cases h : k = k'
  · simp [mfind, h]
  · simp [mfind, h, mfind_mremove]

theorem mfind_mem : ∀ (m : Smap) (u : String) (p : Presence),
    mfind m u = some p → (u, p) ∈ m := by
  intro m
  induction m with
  | nil => intro u p h; cases h
  | cons kv rest ih =>
    intro u p h
    obtain ⟨a, b⟩ := kv
    by_cases hau : a = u
    · subst hau
      simp [mfind] at h
      subst h
      exact List.mem_cons_self _ _
    · simp [mfind, hau] at h
      exact List.mem_cons_of_mem _ (ih u p h)

theorem storedRecord_self (v : Presence) : storedRecord v v.TTL = v := by
  unfold storedRecord
  split <;> rfl

theorem ristrettoSet_self_ttl (c : Smap) (k : String) (v : Presence) :
    ristrettoCache.Set c k v v.TTL = minsert c k v := by
  unfold ristrettoCache.Set
  rw [storedRecord_self]

theorem cache_guard_of_not_expired (p : Presence) (now : Int)
    (h : p.IsExpired now = false) :
    (decide (p.TTL > 0) && decide (now - p.UpdatedAt > p.TTL)) = false := by
  unfold Presence.IsExpired at h
  split at h
  · next hz => simp [hz]
  · simp [h]

/-! ### Claim theorems -/

/-- Claim C9: `Validate()` succeeds exactly when `UserID` and `NodeID` are
non-empty and `Status` is one of online/away/busy/offline, and its outcome is
independent of `Message`, `LastSeen`, `UpdatedAt` and `TTL`. -/
theorem C9_validate_characterization (p : Presence) :
    (p.Validate = none ↔
      (p.UserID ≠ "" ∧ p.NodeID ≠ "" ∧
       (p.Status = "online" ∨ p.Status = "away" ∨ p.Status = "busy" ∨
        p.Status = "offline"))) ∧
    (∀ msg ls ua ttl,
      Presence.Validate
        { p with Message := msg, LastSeen := ls, UpdatedAt := ua, TTL := ttl }
        = p.Validate) := by
  constructor
  · unfold Presence.Validate statusIsValid
    by_cases h1 : p.UserID = "" <;> by_cases h2 : p.NodeID = "" <;>
      by_cases h3 : p.Status = "online" <;> by_cases h4 : p.Status = "away" <;>
      by_cases h5 : p.Status = "busy" <;> by_cases h6 : p.Status = "offline" <;>
      simp [h1, h2, h3, h4, h5, h6]
  · intro msg ls ua ttl
    rfl

/-- Witness for C9 at a concrete record: a record with non-empty ids and a
valid status validates, and changing `Message`, `LastSeen`, `UpdatedAt`, `TTL`
does not change the outcome. -/
theorem C9_witness :
    Presence.Validate ⟨"u", "online", "", 3, 4, "n", 5⟩ = none ∧
    Presence.Validate ⟨"u", "online", "zzz", 9, 9, "n", 7⟩
      = Presence.Validate ⟨"u", "online", "", 3, 4, "n", 5⟩ :=
  ⟨(C9_validate_characterization ⟨"u", "online", "", 3, 4, "n", 5⟩).1.mpr
      ⟨by decide, by decide, Or.inl rfl⟩,
   (C9_validate_characterization ⟨"u", "online", "", 3, 4, "n", 5⟩).2 "zzz" 9 9 7⟩

/-- Claim C3 counterexample: a stored value that fails to decode is surfaced
by `kvStore.Get` as a `failed to unmarshal presence` error, which is a
different error kind than the uniform not-found error — refuting the claim
that a corrupt value is normalized into the uniform "not found" error. -/
theorem C3_counterexample :
    kvStore.Get
      ⟨fun _ => .entry (.corrupt "unexpected end of JSON input"), fun _ => none⟩
      "u1"
      = .error (.unmarshalFailed "unexpected end of JSON input") ∧
    StoreErr.unmarshalFailed "unexpected end of JSON input"
      ≠ StoreErr.notFound "u1" :=
  ⟨rfl, by decide⟩

/-- Claim C3 (amended): `kvStore.Get` normalizes an explicit not-found error,
an empty payload, and a decoded record that fails validation into the one
uniform not-found error; a corrupt (undecodable) stored value is never
surfaced as a record but yields a distinct unmarshal error. -/
theorem C3_get_normalization (b : JSBucket) (u : String) :
    (∀ knf msg, b.get (presenceKey u) = .err knf msg →
       (knf || strContains msg "not found" || strContains msg "no message found") = true →
       kvStore.Get b u = .error (.notFound u)) ∧
    (b.get (presenceKey u) = .entry .empty →
       kvStore.Get b u = .error (.notFound u)) ∧
    (∀ p m, b.get (presenceKey u) = .entry (.decoded p) → p.Validate = some m →
       kvStore.Get b u = .error (.notFound u)) ∧
    (∀ msg, b.get (presenceKey u) = .entry (.corrupt msg) →
       kvStore.Get b u = .error (.unmarshalFailed msg)) := by
  refine ⟨?_, ?_, ?_, ?_⟩
  · intro knf msg hb hcond
    simp [kvStore.Get, hb, hcond]
  · intro hb
    simp [kvStore.Get, hb]
  · intro p m hb hv
    simp [kvStore.Get, hb, hv]
  · intro msg hb
    simp [kvStore.Get, hb]

/-- Witness for C3 (amended), at concrete buckets for each branch. -/
theorem C3_witness :
    kvStore.Get ⟨fun _ => .err true "nats: key not found", fun _ => none⟩ "ua"
      = .error (.notFound "ua") ∧
    kvStore.Get ⟨fun _ => .entry .empty, fun _ => none⟩ "ub"
      = .error (.notFound "ub") ∧
    kvStore.Get ⟨fun _ => .entry (.decoded ⟨"", "online", "", 0, 0, "n", 0⟩),
        fun _ => none⟩ "uc"
      = .error (.notFound "uc") ∧
    kvStore.Get ⟨fun _ => .entry (.corrupt "bad json"), fun _ => none⟩ "ud"
      = .error (.unmarshalFailed "bad json") :=
  ⟨(C3_get_normalization ⟨fun _ => .err true "nats: key not found", fun _ => none⟩ "ua").1
      true "nats: key not found" rfl (by decide),
   (C3_get_normalization ⟨fun _ => .entry .empty, fun _ => none⟩ "ub").2.1 rfl,
   (C3_get_normalization ⟨fun _ => .entry (.decoded ⟨"", "online", "", 0, 0, "n", 0⟩),
        fun _ => none⟩ "uc").2.2.1
      ⟨"", "online", "", 0, 0, "n", 0⟩ "user_id is required" rfl rfl,
   (C3_get_normalization ⟨fun _ => .entry (.corrupt "bad json"), fun _ => none⟩ "ud").2.2.2
      "bad json" rfl⟩

/-- Claim C2 counterexample: with an empty cache and a store whose underlying
lookup fails with a dependency error (`"connection refused"`, not a not-found
signal), `GetPresence` surfaces the uniform not-found domain error — refuting
the claim that a dependency failure surfaces as a server-side error
distinguishable by kind from not-found. -/
theorem C2_counterexample :
    (PresenceService.GetPresence 0
       ⟨[], ⟨fun _ => .err false "connection refused", fun _ => none⟩⟩ "u1").1
      = .error (.presenceNotFound "u1") := rfl

/-- Claim C2 (amended): at the Durable Store layer a dependency failure is a
`getFailed` error, distinguishable by kind from the uniform not-found error;
but `GetPresence` maps every store error — dependency failures included — to
the uniform `PresenceNotFoundError`. -/
theorem C2_dependency_error_collapsed (now : Int) (st : SvcState) (u : String)
    (e : StoreErr) (hmiss : mfind st.cache u = none)
    (herr : kvStore.Get st.bucket u = .error e) :
    (PresenceService.GetPresence now st u).1 = .error (.presenceNotFound u) ∧
    ∀ msg u', StoreErr.getFailed msg ≠ StoreErr.notFound u' := by
  constructor
  · simp [PresenceService.GetPresence, ristrettoCache.Get, hmiss,
      PresenceService.fetchStore, herr]
  · exact fun msg u' h => StoreErr.noConfusion h

/-- Witness for C2 (amended) at a concrete dependency-failing bucket. -/
theorem C2_witness :
    (PresenceService.GetPresence 0
       ⟨[], ⟨fun _ => .err false "dial tcp: i/o timeout", fun _ => none⟩⟩ "u7").1
      = .error (.presenceNotFound "u7") ∧
    ∀ msg u', StoreErr.getFailed msg ≠ StoreErr.notFound u' :=
  C2_dependency_error_collapsed 0
    ⟨[], ⟨fun _ => .err false "dial tcp: i/o timeout", fun _ => none⟩⟩ "u7"
    (.getFailed "dial tcp: i/o timeout") rfl rfl

/-- Claim C7 counterexample: `Set(k, v, ttl)` with `ttl = 100` overwrites the
`TTL` field of the stored record (originally 5), so the flushed `Get(k)` does not
return a record equal to `v` in all fields. -/
theorem C7_counterexample :
    (ristrettoCache.Get 0
       (ristrettoCache.Set [] "u1" ⟨"u1", "online", "", 0, 0, "n1", 5⟩ 100)
       "u1").1
      ≠ some ⟨"u1", "online", "", 0, 0, "n1", 5⟩ := by decide

/-- Claim C7 (amended): after `Set(k, v, ttl)` and the flush `Set` awaits,
`Get(k)` returns `(r, true)` with `r` equal to `v` in every field except that
`r.TTL = ttl` when `ttl > 0`; this holds provided the stored record is not yet
expired at the read time, and the cache is otherwise unchanged.  (The flushed
model treats the admitted entry as visible, per the test-determinism
synchronization point.) -/
theorem C7_set_get_roundtrip (now : Int) (c : Smap) (k : String) (v : Presence)
    (ttl : Int)
    (hfresh : ¬((storedRecord v ttl).TTL > 0 ∧
               now - v.UpdatedAt > (storedRecord v ttl).TTL)) :
    ristrettoCache.Get now (ristrettoCache.Set c k v ttl) k
      = (some (storedRecord v ttl), ristrettoCache.Set c k v ttl) := by
  have hstored : ristrettoCache.Set c k v ttl = minsert c k (storedRecord v ttl) := rfl
  have hupd : (storedRecord v ttl).UpdatedAt = v.UpdatedAt := by
    unfold storedRecord; split <;> rfl
  unfold ristrettoCache.Get
  rw [hstored, mfind_minsert, if_pos rfl]
  have hguard : (decide ((storedRecord v ttl).TTL > 0) &&
      decide (now - (storedRecord v ttl).UpdatedAt > (storedRecord v ttl).TTL)) = false := by
    rw [hupd]
    by_cases h1 : (storedRecord v ttl).TTL > 0
    · have h2 : ¬ (now - v.UpdatedAt > (storedRecord v ttl).TTL) := fun h2 => hfresh ⟨h1, h2⟩
      simp [h2]
    · simp [h1]
  simp [hguard]

/-- Witness for C7 (amended) at a concrete record and ttl. -/
theorem C7_witness :
    ristrettoCache.Get 0
        (ristrettoCache.Set [] "u1" ⟨"u1", "online", "", 0, 0, "n1", 5⟩ 100) "u1"
      = (some (storedRecord ⟨"u1", "online", "", 0, 0, "n1", 5⟩ 100),
         ristrettoCache.Set [] "u1" ⟨"u1", "online", "", 0, 0, "n1", 5⟩ 100) :=
  C7_set_get_roundtrip 0 [] "u1" ⟨"u1", "online", "", 0, 0, "n1", 5⟩ 100
    (by decide)

/-- Claim C4: `SetPresence` overwrites `NodeID` with the configured node
identifier of the service and sets `UpdatedAt` and `LastSeen` to the current time before
validation and persistence, regardless of any client-supplied values for
those fields; on success, the record written to the store and the cache is
exactly the server-stamped record. -/
theorem C4_setPresence_stamps (now : Int) (nodeID : String) (st : SvcState)
    (u : String) (p : Presence) :
    (∀ cNodeID cUpd cLast,
       PresenceService.SetPresence now nodeID st u
         { p with NodeID := cNodeID, UpdatedAt := cUpd, LastSeen := cLast }
         = PresenceService.SetPresence now nodeID st u p) ∧
    (∀ st', PresenceService.SetPresence now nodeID st u p = (.ok (), st') →
       st'.bucket.get (presenceKey u)
         = .entry (.decoded (stampedRecord now nodeID p)) ∧
       mfind st'.cache u = some (stampedRecord now nodeID p)) := by
  constructor
  · intro cNodeID cUpd cLast
    rfl
  · intro st' h
    unfold PresenceService.SetPresence at h
    cases hv : (stampedRecord now nodeID p).Validate with
    | some msg =>
      rw [hv] at h
      simp at h
    | none =>
      rw [hv] at h
      cases hset : kvStore.Set st.bucket u (stampedRecord now nodeID p)
          (stampedRecord now nodeID p).TTL with
      | error msg =>
        rw [hset] at h
        simp at h
      | ok bucket1 =>
        rw [hset] at h
        simp only [Prod.mk.injEq] at h
        obtain ⟨-, hst⟩ := h
        subst hst
        constructor
        · unfold kvStore.Set at hset
          cases hput : st.bucket.putErr (presenceKey u) with
          | some m => rw [hput] at hset; simp at hset
          | none =>
            rw [hput] at hset
            simp only [Except.ok.injEq] at hset
            rw [← hset]
            simp
        · rw [ristrettoSet_self_ttl, mfind_minsert, if_pos rfl]

/-- Witness for C4 at concrete inputs: the client-supplied `NodeID`,
`UpdatedAt` and `LastSeen` are ignored, and the store and cache end up with
the server-stamped record. -/
theorem C4_witness :
    (PresenceService.SetPresence 7 "srv"
        ⟨[], ⟨fun _ => .err true "nf", fun _ => none⟩⟩ "u9"
        { (⟨"u9", "online", "hi", 1, 2, "client", 9⟩ : Presence) with
            NodeID := "other", UpdatedAt := 3, LastSeen := 4 }
      = PresenceService.SetPresence 7 "srv"
          ⟨[], ⟨fun _ => .err true "nf", fun _ => none⟩⟩ "u9"
          ⟨"u9", "online", "hi", 1, 2, "client", 9⟩) ∧
    ((PresenceService.SetPresence 7 "srv"
        ⟨[], ⟨fun _ => .err true "nf", fun _ => none⟩⟩ "u9"
        ⟨"u9", "online", "hi", 1, 2, "client", 9⟩).2.bucket.get (presenceKey "u9")
      = .entry (.decoded (stampedRecord 7 "srv"
          ⟨"u9", "online", "hi", 1, 2, "client", 9⟩))) ∧
    (mfind (PresenceService.SetPresence 7 "srv"
        ⟨[], ⟨fun _ => .err true "nf", fun _ => none⟩⟩ "u9"
        ⟨"u9", "online", "hi", 1, 2, "client", 9⟩).2.cache "u9"
      = some (stampedRecord 7 "srv" ⟨"u9", "online", "hi", 1, 2, "client", 9⟩)) :=
  ⟨(C4_setPresence_stamps 7 "srv"
      ⟨[], ⟨fun _ => .err true "nf", fun _ => none⟩⟩ "u9"
      ⟨"u9", "online", "hi", 1, 2, "client", 9⟩).1 "other" 3 4,
   (C4_setPresence_stamps 7 "srv"
      ⟨[], ⟨fun _ => .err true "nf", fun _ => none⟩⟩ "u9"
      ⟨"u9", "online", "hi", 1, 2, "client", 9⟩).2 _ rfl⟩

/-- Claim C5: `SetPresence` is atomic with respect to the cache on failure —
when the stamped record fails validation, or the Durable Store write errors,
it returns the corresponding error and the whole service state (in particular
the cache) is unchanged. -/
theorem C5_setPresence_failure_atomic (now : Int) (nodeID : String)
    (st : SvcState) (u : String) (p : Presence) :
    (∀ msg, (stampedRecord now nodeID p).Validate = some msg →
       PresenceService.SetPresence now nodeID st u p
         = (.error (.invalidPresence msg), st)) ∧
    (∀ msg, (stampedRecord now nodeID p).Validate = none →
       kvStore.Set st.bucket u (stampedRecord now nodeID p)
         (stampedRecord now nodeID p).TTL = .error msg →
       PresenceService.SetPresence now nodeID st u p
         = (.error (.storeFailed msg), st)) := by
  constructor
  · intro msg hv
    unfold PresenceService.SetPresence
    simp [hv]
  · intro msg hv hset
    unfold PresenceService.SetPresence
    simp [hv, hset]

/-- Witness for C5: a record whose stamped form has an empty `UserID` fails
validation with the state unchanged, and a valid record whose store write
fails leaves the state unchanged. -/
theorem C5_witness :
    (PresenceService.SetPresence 7 "srv"
        ⟨[("w", ⟨"w", "busy", "", 0, 0, "n", 0⟩)],
         ⟨fun _ => .err true "nf", fun _ => none⟩⟩ "ux"
        ⟨"", "online", "", 0, 0, "client", 0⟩
      = (.error (.invalidPresence "user_id is required"),
         ⟨[("w", ⟨"w", "busy", "", 0, 0, "n", 0⟩)],
          ⟨fun _ => .err true "nf", fun _ => none⟩⟩)) ∧
    (PresenceService.SetPresence 7 "srv"
        ⟨[("w", ⟨"w", "busy", "", 0, 0, "n", 0⟩)],
         ⟨fun _ => .err true "nf", fun _ => some "io error"⟩⟩ "ux"
        ⟨"ux", "online", "", 0, 0, "client", 0⟩
      = (.error (.storeFailed "failed to put presence: io error"),
         ⟨[("w", ⟨"w", "busy", "", 0, 0, "n", 0⟩)],
          ⟨fun _ => .err true "nf", fun _ => some "io error"⟩⟩)) :=
  ⟨(C5_setPresence_failure_atomic 7 "srv"
      ⟨[("w", ⟨"w", "busy", "", 0, 0, "n", 0⟩)],
       ⟨fun _ => .err true "nf", fun _ => none⟩⟩ "ux"
      ⟨"", "online", "", 0, 0, "client", 0⟩).1 "user_id is required" rfl,
   (C5_setPresence_failure_atomic 7 "srv"
      ⟨[("w", ⟨"w", "busy", "", 0, 0, "n", 0⟩)],
       ⟨fun _ => .err true "nf", fun _ => some "io error"⟩⟩ "ux"
      ⟨"ux", "online", "", 0, 0, "client", 0⟩).2
     "failed to put presence: io error" rfl rfl⟩

/-- Claim C1: the cache-aside read path of `GetPresence`.  An unexpired cache
hit is returned with the state unchanged and independently of the Durable
Store; an expired cache hit deletes the cache entry and falls through to the
store path; a cache miss falls through with the cache unchanged; on the store
path, a store hit is written to the cache and returned, and a store miss
yields the domain-specific not-found error with the state unchanged. -/
theorem C1_getPresence_cache_aside (now : Int) (st : SvcState) (u : String) :
    (∀ p, mfind st.cache u = some p → p.IsExpired now = false →
       PresenceService.GetPresence now st u = (.ok p, st) ∧
       ∀ b', (PresenceService.GetPresence now { st with bucket := b' } u).1
               = .ok p) ∧
    (∀ p, mfind st.cache u = some p → p.IsExpired now = true →
       PresenceService.GetPresence now st u
         = PresenceService.fetchStore { st with cache := mremove st.cache u } u) ∧
    (mfind st.cache u = none →
       PresenceService.GetPresence now st u = PresenceService.fetchStore st u) ∧
    (∀ p, kvStore.Get st.bucket u = .ok p →
       PresenceService.fetchStore st u
         = (.ok p, { st with cache := ristrettoCache.Set st.cache u p p.TTL })) ∧
    (kvStore.Get st.bucket u = .error (.notFound u) →
       PresenceService.fetchStore st u = (.error (.presenceNotFound u), st)) := by
  refine ⟨?_, ?_, ?_, ?_, ?_⟩
  · intro p hhit hfresh
    have hguard := cache_guard_of_not_expired p now hfresh
    constructor
    · unfold PresenceService.GetPresence ristrettoCache.Get
      rw [hhit]
      simp [hguard, hfresh]
    · intro b'
      unfold PresenceService.GetPresence ristrettoCache.Get
      rw [show ({ st with bucket := b' } : SvcState).cache = st.cache from rfl, hhit]
      simp [hguard, hfresh]
  · intro p hhit hexp
    unfold PresenceService.GetPresence ristrettoCache.Get
    rw [hhit]
    by_cases hguard : (decide (p.TTL > 0) && decide (now - p.UpdatedAt > p.TTL)) = true
    · -- the cache-level expiry check already removed the entry: miss branch
      simp only [hguard, if_pos rfl]
      rfl
    · -- service-level expiry: the service deletes and falls through
      simp only [Bool.not_eq_true] at hguard
      simp [hguard, hexp, ristrettoCache.Delete]
  · intro hmiss
    unfold PresenceService.GetPresence ristrettoCache.Get
    rw [hmiss]
  · intro p hok
    unfold PresenceService.fetchStore
    rw [hok]
  · intro herr
    unfold PresenceService.fetchStore
    rw [herr]

/-- Witness for C1, exercising each branch at concrete states: a fresh cache
hit (including store-independence at a second bucket), an expired cache hit,
a cache miss, a store hit, and a store miss. -/
theorem C1_witness :
    (PresenceService.GetPresence 5
        ⟨[("u1", ⟨"u1", "online", "", 0, 0, "n1", 0⟩)],
         ⟨fun _ => .err true "nf", fun _ => none⟩⟩ "u1"
      = (.ok ⟨"u1", "online", "", 0, 0, "n1", 0⟩,
         ⟨[("u1", ⟨"u1", "online", "", 0, 0, "n1", 0⟩)],
          ⟨fun _ => .err true "nf", fun _ => none⟩⟩)) ∧
    ((PresenceService.GetPresence 5
        ⟨[("u1", ⟨"u1", "online", "", 0, 0, "n1", 0⟩)],
         ⟨fun _ => .err true "nf", fun _ => none⟩⟩ "u1").1 = .ok ⟨"u1", "online", "", 0, 0, "n1", 0⟩) ∧
    (PresenceService.GetPresence 10
        ⟨[("u2", ⟨"u2", "away", "", 0, 0, "n1", 3⟩)],
         ⟨fun _ => .err true "nf", fun _ => none⟩⟩ "u2"
      = PresenceService.fetchStore
          ⟨mremove [("u2", ⟨"u2", "away", "", 0, 0, "n1", 3⟩)] "u2",
           ⟨fun _ => .err true "nf", fun _ => none⟩⟩ "u2") ∧
    (PresenceService.GetPresence 5
        ⟨[], ⟨fun _ => .err true "nf", fun _ => none⟩⟩ "u3"
      = PresenceService.fetchStore ⟨[], ⟨fun _ => .err true "nf", fun _ => none⟩⟩ "u3") ∧
    (PresenceService.fetchStore
        ⟨[], ⟨fun _ => .entry (.decoded ⟨"u4", "busy", "", 0, 0, "n2", 0⟩), fun _ => none⟩⟩ "u4"
      = (.ok ⟨"u4", "busy", "", 0, 0, "n2", 0⟩,
         ⟨ristrettoCache.Set [] "u4" ⟨"u4", "busy", "", 0, 0, "n2", 0⟩ 0,
          ⟨fun _ => .entry (.decoded ⟨"u4", "busy", "", 0, 0, "n2", 0⟩), fun _ => none⟩⟩)) ∧
    (PresenceService.fetchStore
        ⟨[], ⟨fun _ => .err true "nf", fun _ => none⟩⟩ "u5"
      = (.error (.presenceNotFound "u5"),
         ⟨[], ⟨fun _ => .err true "nf", fun _ => none⟩⟩)) :=
  ⟨((C1_getPresence_cache_aside 5
      ⟨[("u1", ⟨"u1", "online", "", 0, 0, "n1", 0⟩)],
       ⟨fun _ => .err true "nf", fun _ => none⟩⟩ "u1").1
      ⟨"u1", "online", "", 0, 0, "n1", 0⟩ rfl rfl).1,
   ((C1_getPresence_cache_aside 5
      ⟨[("u1", ⟨"u1", "online", "", 0, 0, "n1", 0⟩)],
       ⟨fun _ => .err false "other bucket", fun _ => none⟩⟩ "u1").1
      ⟨"u1", "online", "", 0, 0, "n1", 0⟩ rfl rfl).2
      ⟨fun _ => .err true "nf", fun _ => none⟩,
   (C1_getPresence_cache_aside 10
      ⟨[("u2", ⟨"u2", "away", "", 0, 0, "n1", 3⟩)],
       ⟨fun _ => .err true "nf", fun _ => none⟩⟩ "u2").2.1
      ⟨"u2", "away", "", 0, 0, "n1", 3⟩ rfl rfl,
   (C1_getPresence_cache_aside 5
      ⟨[], ⟨fun _ => .err true "nf", fun _ => none⟩⟩ "u3").2.2.1 rfl,
   (C1_getPresence_cache_aside 5
      ⟨[], ⟨fun _ => .entry (.decoded ⟨"u4", "busy", "", 0, 0, "n2", 0⟩),
            fun _ => none⟩⟩ "u4").2.2.2.1
      ⟨"u4", "busy", "", 0, 0, "n2", 0⟩ rfl,
   (C1_getPresence_cache_aside 5
      ⟨[], ⟨fun _ => .err true "nf", fun _ => none⟩⟩ "u5").2.2.2.2 rfl⟩

theorem pollLoop_timesOut (readyAt : Nat → Bool) (elapsed : Nat → Int)
    (t : Int) (nt : String) :
    ∀ (k i fuel : Nat), (∀ j, j ≤ k → readyAt (i + j) = false) →
      (∀ j, j < k → elapsed (i + j) < t) → elapsed (i + k) ≥ t → k < fuel →
      pollLoop readyAt elapsed t nt i fuel
        = some (Except.error ⟨t, nt, true⟩) := by
  intro k
  induction k with
  | zero =>
    intro i fuel hready hbefore hnow hfuel
    obtain ⟨f, rfl⟩ : ∃ f, fuel = f + 1 :=
      ⟨fuel - 1, by omega⟩
    unfold pollLoop
    have h0 : readyAt i = false := by simpa using hready 0 (by omega)
    have hn : elapsed i ≥ t := by simpa using hnow
    rw [h0]
    simp only [Bool.false_eq_true, if_false]
    rw [if_pos hn]
  | succ k ih =>
    intro i fuel hready hbefore hnow hfuel
    obtain ⟨f, rfl⟩ : ∃ f, fuel = f + 1 := ⟨fuel - 1, by omega⟩
    unfold pollLoop
    have h0 : readyAt i = false := by
      have := hready 0 (by omega)
      simpa using this
    have he0 : elapsed i < t := by
      have := hbefore 0 (by omega)
      simpa using this
    rw [h0]
    simp only [Bool.false_eq_true, if_false]
    rw [if_neg (by omega)]
    apply ih (i + 1) f
    · intro j hj
      have := hready (j + 1) (by omega)
      rw [show i + 1 + j = i + (j + 1) by omega]
      exact this
    · intro j hj
      have := hbefore (j + 1) (by omega)
      rw [show i + 1 + j = i + (j + 1) by omega]
      exact this
    · rw [show i + 1 + k = i + (k + 1) by omega]
      exact hnow
    · omega

/-- Claim C8 counterexample: with the default center timeout of 30s and the
broker never ready, the readiness loop observes an elapsed time of 30.1s at
its failure check, yet the duration argument of the error is the configured 30s
timeout — not the elapsed duration — refuting the claim that the error names
the elapsed duration. -/
theorem C8_counterexample :
    startEmbeddedServer "center" none (fun _ => false) (fun _ => 30100000000) 1
      = some (Except.error ⟨30000000000, "center", true⟩) ∧
    (30100000000 : Int) ≠ 30000000000 :=
  ⟨rfl, by decide⟩

/-- Claim C8 (amended): if the broker does not become ready before the
role-dependent configured timeout is exceeded, the readiness loop shuts the
partially-started broker down (no leak) and fails with an error naming the
configured timeout duration and the node role; `NewKVStore` then returns no
store object, wrapping that failure. -/
theorem C8_readiness_timeout (cfgNodeType : String) (cfgTimeout : Option Int)
    (readyAt : Nat → Bool) (elapsed : Nat → Int) (k fuel : Nat)
    (nt : String) (t : Int)
    (hnt : nt = (if cfgNodeType = "" then "center" else cfgNodeType))
    (ht : t = chooseTimeout cfgTimeout nt)
    (hready : ∀ j, j ≤ k → readyAt j = false)
    (hbefore : ∀ j, j < k → elapsed j < t)
    (hnow : elapsed k ≥ t) (hfuel : k < fuel) :
    startEmbeddedServer cfgNodeType cfgTimeout readyAt elapsed fuel
      = some (Except.error ⟨t, nt, true⟩) ∧
    NewKVStoreStartup true cfgNodeType cfgTimeout readyAt elapsed fuel
      = some (.failsWith ⟨t, nt, true⟩) := by
  have hstart : startEmbeddedServer cfgNodeType cfgTimeout readyAt elapsed fuel
      = some (Except.error ⟨t, nt, true⟩) := by
    unfold startEmbeddedServer
    rw [← hnt, ← ht]
    exact pollLoop_timesOut readyAt elapsed t nt k 0 fuel
      (fun j hj => by simpa using hready j hj)
      (fun j hj => by simpa using hbefore j hj)
      (by simpa using hnow) hfuel
  refine ⟨hstart, ?_⟩
  unfold NewKVStoreStartup
  rw [if_pos rfl, hstart]

/-- Witness for C8 (amended): a leaf node with the default 15s timeout, never
ready, with the elapsed clock at the bound on the first check. -/
theorem C8_witness :
    startEmbeddedServer "leaf" none (fun _ => false) (fun _ => 15000000000) 1
      = some (Except.error ⟨15000000000, "leaf", true⟩) ∧
    NewKVStoreStartup true "leaf" none (fun _ => false) (fun _ => 15000000000) 1
      = some (.failsWith ⟨15000000000, "leaf", true⟩) :=
  C8_readiness_timeout "leaf" none (fun _ => false) (fun _ => 15000000000) 0 1
    "leaf" 15000000000 (by decide) rfl
    (fun j _ => rfl) (fun j hj => absurd hj (by omega))
    (by decide) (by omega)

theorem gm_fold (b : JSBucket) :
    ∀ (ids : List String) (acc : Smap) (u : String),
      mfind (ids.foldl
        (fun acc userID =>
          match kvStore.Get b userID with
          | .ok presence => minsert acc userID presence
          | .error _ => acc) acc) u
      = if u ∈ ids then
          (match kvStore.Get b u with
           | .ok p => some p
           | .error _ => mfind acc u)
        else mfind acc u := by
  intro ids
  induction ids with
  | nil => intro acc u; simp
  | cons a rest ih =>
    intro acc u
    rw [List.foldl_cons]
    cases hga : kvStore.Get b a with
    | ok p =>
      simp only [hga]
      rw [ih]
      by_cases hau : u = a
      · subst hau
        by_cases h : u ∈ rest <;>
          simp [h, List.mem_cons, hga, mfind_minsert]
      · have hau' : ¬ a = u := fun h => hau h.symm
        by_cases h : u ∈ rest <;>
          simp [h, List.mem_cons, hau, mfind_minsert, hau']
    | error e =>
      simp only [hga]
      rw [ih]
      by_cases hau : u = a
      · subst hau
        by_cases h : u ∈ rest <;> simp [h, List.mem_cons, hga]
      · by_cases h : u ∈ rest <;> simp [h, List.mem_cons, hau]

/-- Claim C10: `kvStore.GetMultiple` returns a literally-nil error for every
input; every id whose individual `Get` fails — dependency failures included —
is silently omitted from the result map; and consequently the orchestrator
store-batch-failure abort branch in `GetMultiplePresences` is unreachable
with this store: the call never returns an error. -/
theorem C10_getMultiple_never_errors (b : JSBucket) (ids : List String) :
    (kvStore.GetMultiple b ids).2 = none ∧
    (∀ u e, kvStore.Get b u = .error e →
       mfind (kvStore.GetMultiple b ids).1 u = none) ∧
    (∀ (now : Int) (st : SvcState) (e : SvcErr),
       (PresenceService.GetMultiplePresences now st ids).1 ≠ .error e) := by
  refine ⟨rfl, ?_, ?_⟩
  · intro u e herr
    show mfind (ids.foldl _ []) u = none
    rw [gm_fold]
    by_cases h : u ∈ ids <;> simp [h, herr, mfind]
  · intro now st e
    rcases hcp : PresenceService.cachePass now ids [] [] st.cache with
      ⟨result, missing, cache1⟩
    unfold PresenceService.GetMultiplePresences
    rw [hcp]
    by_cases hlen : missing.length > 0 <;>
      simp [hlen, kvStore.GetMultiple]

/-- Witness for C10: a bucket whose every lookup fails with a dependency
error yields an empty result map, a nil batch error, and no service error —
indistinguishable from all keys being absent. -/
theorem C10_witness :
    (kvStore.GetMultiple ⟨fun _ => .err false "connection reset", fun _ => none⟩
        ["a", "b"]).2 = none ∧
    mfind (kvStore.GetMultiple ⟨fun _ => .err false "connection reset", fun _ => none⟩
        ["a", "b"]).1 "a" = none ∧
    (PresenceService.GetMultiplePresences 0
        ⟨[], ⟨fun _ => .err false "connection reset", fun _ => none⟩⟩ ["a", "b"]).1
      ≠ .error (.getMultipleFailed "connection reset") :=
  ⟨(C10_getMultiple_never_errors
      ⟨fun _ => .err false "connection reset", fun _ => none⟩ ["a", "b"]).1,
   (C10_getMultiple_never_errors
      ⟨fun _ => .err false "connection reset", fun _ => none⟩ ["a", "b"]).2.1
      "a" (.getFailed "connection reset") rfl,
   (C10_getMultiple_never_errors
      ⟨fun _ => .err false "connection reset", fun _ => none⟩ ["a", "b"]).2.2
      0 ⟨[], ⟨fun _ => .err false "connection reset", fun _ => none⟩⟩
      (.getMultipleFailed "connection reset")⟩

theorem mem_of_mem_mremove : ∀ (m : Smap) (k : String) (kv : String × Presence),
    kv ∈ mremove m k → kv ∈ m := by
  intro m k
  induction m with
  | nil => intro kv h; exact absurd h (by simp [mremove])
  | cons x rest ih =>
    intro kv h
    obtain ⟨k', v⟩ := x
    unfold mremove at h
    by_cases hk : k' = k
    · rw [if_pos hk] at h
      exact List.mem_cons_of_mem _ (ih kv h)
    · rw [if_neg hk] at h
      rcases List.mem_cons.mp h with heq | htail
      · exact heq ▸ List.mem_cons_self _ _
      · exact List.mem_cons_of_mem _ (ih kv htail)

theorem freshHit_mremove_of_none (now : Int) (cache : Smap) (k : String)
    (h : freshHit now cache k = none) (u : String) :
    freshHit now (mremove cache k) u = freshHit now cache u := by
  by_cases huk : u = k
  · subst huk
    rw [h]
    unfold freshHit
    rw [mfind_mremove, if_pos rfl]
  · unfold freshHit
    rw [mfind_mremove, if_neg (fun hh => huk hh.symm)]

theorem gm_fold_mem (b : JSBucket) :
    ∀ (ids : List String) (acc : Smap) (kv : String × Presence),
      kv ∈ ids.foldl
        (fun acc userID =>
          match kvStore.Get b userID with
          | .ok presence => minsert acc userID presence
          | .error _ => acc) acc →
      kv ∈ acc ∨ kvStore.Get b kv.1 = .ok kv.2 := by
  intro ids
  induction ids with
  | nil => intro acc kv h; exact .inl (by simpa using h)
  | cons a rest ih =>
    intro acc kv h
    rw [List.foldl_cons] at h
    cases hga : kvStore.Get b a with
    | ok p =>
      simp only [hga] at h
      rcases ih _ kv h with hmem | hok
      · rcases List.mem_cons.mp hmem with heq | hmem'
        · right
          rw [heq]
          exact hga
        · exact .inl (mem_of_mem_mremove acc a kv hmem')
      · exact .inr hok
    | error e =>
      simp only [hga] at h
      exact ih acc kv h

theorem cachePass_char (now : Int) :
    ∀ (ids : List String) (result : Smap) (missing : List String) (cache : Smap),
      (∀ u, mfind (PresenceService.cachePass now ids result missing cache).1 u
         = (match freshHit now cache u with
            | some p => if u ∈ ids then some p else mfind result u
            | none => mfind result u)) ∧
      (∀ u, u ∈ (PresenceService.cachePass now ids result missing cache).2.1 ↔
         (u ∈ missing ∨ (u ∈ ids ∧ freshHit now cache u = none))) ∧
      (∀ u, freshHit now (PresenceService.cachePass now ids result missing cache).2.2 u
         = freshHit now cache u) := by
  intro ids
  induction ids with
  | nil =>
    intro result missing cache
    refine ⟨?_, ?_, ?_⟩
    · intro u
      cases hf : freshHit now cache u <;> simp [PresenceService.cachePass, hf]
    · intro u
      simp [PresenceService.cachePass]
    · intro u
      simp [PresenceService.cachePass]
  | cons a rest ih =>
    intro result missing cache
    cases hmf : mfind cache a with
    | none =>
      have hfa : freshHit now cache a = none := by unfold freshHit; rw [hmf]
      have heq : PresenceService.cachePass now (a :: rest) result missing cache
          = PresenceService.cachePass now rest result (missing ++ [a]) cache := by
        simp only [PresenceService.cachePass, ristrettoCache.Get, hmf]
      rw [heq]
      obtain ⟨ih1, ih2, ih3⟩ := ih result (missing ++ [a]) cache
      refine ⟨?_, ?_, ?_⟩
      · intro u
        rw [ih1 u]
        cases hf : freshHit now cache u with
        | some q =>
          have hua : ¬ u = a := fun h => by rw [h, hfa] at hf; cases hf
          simp [List.mem_cons, hua]
        | none => rfl
      · intro u
        rw [ih2 u]
        by_cases hua : u = a
        · subst hua
          simp [List.mem_append, List.mem_cons, hfa]
        · simp [List.mem_append, List.mem_cons, hua]
      · intro u
        exact ih3 u
    | some p =>
      cases hexp : p.IsExpired now with
      | false =>
        have hfa : freshHit now cache a = some p := by
          unfold freshHit
          rw [hmf]
          simp [hexp]
        have hguard := cache_guard_of_not_expired p now hexp
        have heq : PresenceService.cachePass now (a :: rest) result missing cache
            = PresenceService.cachePass now rest (minsert result a p) missing cache := by
          simp only [PresenceService.cachePass, ristrettoCache.Get, hmf]
          simp [hguard, hexp]
        rw [heq]
        obtain ⟨ih1, ih2, ih3⟩ := ih (minsert result a p) missing cache
        refine ⟨?_, ?_, ?_⟩
        · intro u
          rw [ih1 u]
          by_cases hua : u = a
          · subst hua
            rw [hfa]
            by_cases h : u ∈ rest <;> simp [h, List.mem_cons, mfind_minsert]
          · have hau : ¬ a = u := fun h => hua h.symm
            cases hf : freshHit now cache u with
            | some q => simp [List.mem_cons, hua, mfind_minsert, hau]
            | none => rw [mfind_minsert, if_neg hau]
        · intro u
          rw [ih2 u]
          by_cases hua : u = a
          · subst hua
            simp [List.mem_cons, hfa]
          · simp [List.mem_cons, hua]
        · intro u
          exact ih3 u
      | true =>
        have hfa : freshHit now cache a = none := by
          unfold freshHit
          rw [hmf]
          simp [hexp]
        have hfresh' := freshHit_mremove_of_none now cache a hfa
        have heq : PresenceService.cachePass now (a :: rest) result missing cache
            = PresenceService.cachePass now rest result (missing ++ [a])
                (mremove cache a) := by
          simp only [PresenceService.cachePass, ristrettoCache.Get, hmf]
          by_cases hg : (decide (p.TTL > 0) && decide (now - p.UpdatedAt > p.TTL)) = true
          · simp [hg]
          · simp [hg, hexp, ristrettoCache.Delete]
        rw [heq]
        obtain ⟨ih1, ih2, ih3⟩ := ih result (missing ++ [a]) (mremove cache a)
        refine ⟨?_, ?_, ?_⟩
        · intro u
          rw [ih1 u, hfresh' u]
          cases hf : freshHit now cache u with
          | some q =>
            have hua : ¬ u = a := fun h => by rw [h, hfa] at hf; cases hf
            simp [List.mem_cons, hua]
          | none => rfl
        · intro u
          rw [ih2 u, hfresh' u]
          by_cases hua : u = a
          · subst hua
            simp [List.mem_append, List.mem_cons, hfa]
          · simp [List.mem_append, List.mem_cons, hua]
        · intro u
          rw [ih3 u, hfresh' u]

theorem storeMerge_char (b : JSBucket) :
    ∀ (pairs : Smap), (∀ kv ∈ pairs, kvStore.Get b kv.1 = .ok kv.2) →
      ∀ (r c : Smap) (u : String),
        (mfind (storeMerge pairs r c).1 u
          = (match mfind pairs u with
             | some p => some p
             | none => mfind r u)) ∧
        (mfind (storeMerge pairs r c).2 u
          = (match mfind pairs u with
             | some p => some p
             | none => mfind c u)) := by
  intro pairs
  induction pairs with
  | nil =>
    intro _ r c u
    constructor <;> simp [storeMerge, mfind]
  | cons kv rest ih =>
    intro hval r c u
    obtain ⟨k, v⟩ := kv
    have hk : kvStore.Get b k = .ok v := hval (k, v) (List.mem_cons_self _ _)
    have hrest : ∀ kv ∈ rest, kvStore.Get b kv.1 = .ok kv.2 :=
      fun kv hkv => hval kv (List.mem_cons_of_mem _ hkv)
    have hunfold : storeMerge ((k, v) :: rest) r c
        = storeMerge rest (minsert r k v) (minsert c k v) := by
      unfold storeMerge
      rw [List.foldl_cons]
      rw [show ristrettoCache.Set c k v v.TTL = minsert c k v from
        ristrettoSet_self_ttl c k v]
    rw [hunfold]
    obtain ⟨ih1, ih2⟩ := ih hrest (minsert r k v) (minsert c k v) u
    by_cases hu : u = k
    · subst hu
      have hhead : mfind ((u, v) :: rest) u = some v := by simp [mfind]
      rw [hhead] at *
      constructor
      · rw [ih1]
        cases hr : mfind rest u with
        | some q =>
          have hq : kvStore.Get b u = .ok q := hrest (u, q) (mfind_mem rest u q hr)
          rw [hk] at hq
          injection hq with hvq
          rw [← hvq]
        | none => rw [mfind_minsert, if_pos rfl]
      · rw [ih2]
        cases hr : mfind rest u with
        | some q =>
          have hq : kvStore.Get b u = .ok q := hrest (u, q) (mfind_mem rest u q hr)
          rw [hk] at hq
          injection hq with hvq
          rw [← hvq]
        | none => rw [mfind_minsert, if_pos rfl]
    · have hku : ¬ k = u := fun h => hu h.symm
      have hhead : mfind ((k, v) :: rest) u = mfind rest u := by simp [mfind, hku]
      rw [hhead]
      constructor
      · rw [ih1]
        cases hr : mfind rest u with
        | some q => rfl
        | none => rw [mfind_minsert, if_neg hku]
      · rw [ih2]
        cases hr : mfind rest u with
        | some q => rfl
        | none => rw [mfind_minsert, if_neg hku]

/-- Claim C6: `GetMultiplePresences` partitions the ids into unexpired cache
hits and misses, fetches the misses in one batched store call, caches every
store-fetched record, and returns (with a nil error) the merged map holding
exactly the ids found in either tier — unexpired cache hits with their cached
record, and store hits among the misses with the fetched record. -/
theorem C6_getMultiplePresences (now : Int) (st : SvcState) (ids : List String) :
    ∃ m, (PresenceService.GetMultiplePresences now st ids).1 = .ok m ∧
      (∀ u, mfind m u = multiSpec now st ids u) ∧
      (∀ u p, u ∈ ids → freshHit now st.cache u = none →
         kvStore.Get st.bucket u = .ok p →
         mfind (PresenceService.GetMultiplePresences now st ids).2.cache u
           = some p) := by
  obtain ⟨cp1, cp2, cp3⟩ := cachePass_char now ids [] [] st.cache
  rcases hcp : PresenceService.cachePass now ids [] [] st.cache with
    ⟨result, missing, cache1⟩
  rw [hcp] at cp1 cp2 cp3
  simp only at cp1 cp2 cp3
  have hmissing : ∀ u, u ∈ missing ↔ (u ∈ ids ∧ freshHit now st.cache u = none) := by
    intro u
    rw [cp2 u]
    simp
  have hresult : ∀ u, mfind result u
      = (match freshHit now st.cache u with
         | some p => if u ∈ ids then some p else none
         | none => none) := by
    intro u
    rw [cp1 u]
    cases freshHit now st.cache u <;> simp [mfind]
  by_cases hlen : missing.length > 0
  · -- the batched store call runs
    have hred : PresenceService.GetMultiplePresences now st ids
        = (.ok (storeMerge (kvStore.GetMultiple st.bucket missing).1 result cache1).1,
           { st with
             cache := (storeMerge (kvStore.GetMultiple st.bucket missing).1
               result cache1).2 }) := by
      unfold PresenceService.GetMultiplePresences
      rw [hcp]
      dsimp only
      rw [if_pos hlen]
      rfl
    have hval : ∀ kv ∈ (kvStore.GetMultiple st.bucket missing).1,
        kvStore.Get st.bucket kv.1 = .ok kv.2 := by
      intro kv hkv
      rcases gm_fold_mem st.bucket missing [] kv hkv with hmem | hok
      · cases hmem
      · exact hok
    have hSR : ∀ u, mfind (kvStore.GetMultiple st.bucket missing).1 u
        = if u ∈ missing then
            (match kvStore.Get st.bucket u with
             | .ok p => some p
             | .error _ => none)
          else none := by
      intro u
      show mfind (missing.foldl _ []) u = _
      rw [gm_fold]
      by_cases h : u ∈ missing
      · rw [if_pos h, if_pos h]
        cases hg : kvStore.Get st.bucket u <;> simp [mfind]
      · rw [if_neg h, if_neg h]
        rfl
    refine ⟨_, by rw [hred], ?_, ?_⟩
    · intro u
      have hm := (storeMerge_char st.bucket (kvStore.GetMultiple st.bucket missing).1
        hval result cache1 u).1
      rw [hm, hSR u, hresult u]
      unfold multiSpec
      by_cases hin : u ∈ ids
      · cases hf : freshHit now st.cache u with
        | some q =>
          have hnotmiss : u ∉ missing := fun hmem =>
            by rw [(hmissing u).mp hmem |>.2] at hf; cases hf
          simp [hin, hf, hnotmiss]
        | none =>
          have hmem : u ∈ missing := (hmissing u).mpr ⟨hin, hf⟩
          cases hg : kvStore.Get st.bucket u <;> simp [hin, hf, hmem, hg]
      · have hnotmiss : u ∉ missing := fun hmem => hin ((hmissing u).mp hmem).1
        cases hf : freshHit now st.cache u <;> simp [hin, hf, hnotmiss]
    · intro u p hin hf hok
      rw [hred]
      have hm := (storeMerge_char st.bucket (kvStore.GetMultiple st.bucket missing).1
        hval result cache1 u).2
      simp only at hm ⊢
      rw [hm, hSR u, if_pos ((hmissing u).mpr ⟨hin, hf⟩), hok]
  · -- no misses: cache-pass result is returned directly
    have hmissnil : missing = [] := by
      cases missing with
      | nil => rfl
      | cons a l => simp at hlen
    subst hmissnil
    have hnone : ∀ u, ¬ (u ∈ ids ∧ freshHit now st.cache u = none) := by
      intro u hu
      exact absurd ((hmissing u).mpr hu) (List.not_mem_nil u)
    have hred : PresenceService.GetMultiplePresences now st ids
        = (.ok result, { st with cache := cache1 }) := by
      unfold PresenceService.GetMultiplePresences
      rw [hcp]
      dsimp only
      rfl
    refine ⟨result, by rw [hred], ?_, ?_⟩
    · intro u
      rw [hresult u]
      unfold multiSpec
      by_cases hin : u ∈ ids
      · cases hf : freshHit now st.cache u with
        | some q => simp [hin]
        | none => exact absurd ⟨hin, hf⟩ (hnone u)
      · cases hf : freshHit now st.cache u <;> simp [hin]
    · intro u p hin hf hok
      exact absurd ⟨hin, hf⟩ (hnone u)

/-- Witness for C6: with an empty cache and a store containing only `u1` and
`u2`, `GetMultiplePresences` over `[u1, u2, u4]` returns exactly `{u1, u2}`
(omitting `u4`) with a nil error, and both fetched records are cached. -/
theorem C6_witness :
    ∃ m, (PresenceService.GetMultiplePresences 0
        ⟨[], ⟨fun k => if k = "user.u1" then
                  .entry (.decoded ⟨"u1", "online", "", 0, 0, "n1", 0⟩)
                else if k = "user.u2" then
                  .entry (.decoded ⟨"u2", "busy", "", 0, 0, "n1", 0⟩)
                else .err true "nats: key not found", fun _ => none⟩⟩
        ["u1", "u2", "u4"]).1 = .ok m ∧
      mfind m "u1" = some ⟨"u1", "online", "", 0, 0, "n1", 0⟩ ∧
      mfind m "u2" = some ⟨"u2", "busy", "", 0, 0, "n1", 0⟩ ∧
      mfind m "u4" = none ∧
      mfind (PresenceService.GetMultiplePresences 0
        ⟨[], ⟨fun k => if k = "user.u1" then
                  .entry (.decoded ⟨"u1", "online", "", 0, 0, "n1", 0⟩)
                else if k = "user.u2" then
                  .entry (.decoded ⟨"u2", "busy", "", 0, 0, "n1", 0⟩)
                else .err true "nats: key not found", fun _ => none⟩⟩
        ["u1", "u2", "u4"]).2.cache "u1"
        = some ⟨"u1", "online", "", 0, 0, "n1", 0⟩ := by
  obtain ⟨m, hok, hchar, hcache⟩ := C6_getMultiplePresences 0
    ⟨[], ⟨fun k => if k = "user.u1" then
              .entry (.decoded ⟨"u1", "online", "", 0, 0, "n1", 0⟩)
            else if k = "user.u2" then
              .entry (.decoded ⟨"u2", "busy", "", 0, 0, "n1", 0⟩)
            else .err true "nats: key not found", fun _ => none⟩⟩
    ["u1", "u2", "u4"]
  refine ⟨m, hok, ?_, ?_, ?_, ?_⟩
  · rw [hchar "u1"]; rfl
  · rw [hchar "u2"]; rfl
  · rw [hchar "u4"]; rfl
  · exact hcache "u1" ⟨"u1", "online", "", 0, 0, "n1", 0⟩ (by simp) rfl rfl

end GoPresence
